import Mathlib

/-!
Verification development for the `tube` HTTP router (Go).

The Go source is shallowly embedded:
* a small backtracking regular-expression engine models Go's `regexp`
  package (leftmost-first / Perl submatch semantics) for the pattern
  subset the program emits;
* `parsePattern`, `Dir`, `createRoute`, `ServeHTTP` (route resolution),
  `ClearCache`, `RemoveRoute`, `callRoute` parameter extraction and the
  `StaticDir` path rewrite model the router (`part_001`);
* `readHTMLFile`, `parseHTML`, `serveHTML` model the HTML preprocessor
  (`html.go`), with Go's `path.Clean`/`path.Join`/`path.Dir` modelled
  explicitly and the file system and environment passed as functions.

Effectful state (caches, route table) is passed explicitly in a
`Router` structure; Go `map` reads/writes become association-list
operations; Go panics and unbounded recursion surface as `Option`.
-/

namespace Tube

/-! ## String helpers (models of Go `strings` functions used by the source) -/

/-- Model of `strings.Replace(s, old, new, 1)` for non-empty `old`:
replace the first occurrence only; if absent, return `s` unchanged. -/
def listReplaceFirst : List Char → List Char → List Char → List Char
  | [], _, _ => []
  | c :: t, old, new =>
    if old.isPrefixOf (c :: t) then new ++ (c :: t).drop old.length
    else c :: listReplaceFirst t old new

def strReplaceFirst (s old new : String) : String :=
  (listReplaceFirst s.toList old.toList new.toList).asString

/-- Model of `strings.HasSuffix(s, "/")`. -/
def strHasSuffixSlash (s : String) : Bool :=
  s.toList.getLast? == some '/'

/-- Model of `str[:len(str)-1]` for an ASCII string. -/
def strDropLast (s : String) : String :=
  s.toList.dropLast.asString

/-- Model of `if str != "/" && strings.HasSuffix(str, "/") { str = str[:len(str)-1] }`
(shared by `parsePattern` and `Dir`). -/
def stripTrailingSlash (s : String) : String :=
  if s = "/" then s
  else if strHasSuffixSlash s then strDropLast s
  else s

/-- Model of `strings.TrimPrefix(fn, "/")`. -/
def trimLeadingSlash (s : String) : String :=
  match s.toList with
  | '/' :: rest => rest.asString
  | _ => s

/-! ## Association lists (models of Go map lookup / assignment) -/

def assocSet {κ α : Type} [BEq κ] (l : List (κ × α)) (k : κ) (v : α) : List (κ × α) :=
  match l with
  | [] => [(k, v)]
  | (k0, v0) :: rest => if k0 == k then (k0, v) :: rest else (k0, v0) :: assocSet rest k v

def assocLookup {κ α : Type} [BEq κ] (l : List (κ × α)) (k : κ) : Option α :=
  match l with
  | [] => none
  | (k0, v0) :: rest => if k0 == k then some v0 else assocLookup rest k

/-! ## Regular-expression engine

Models the fragment of Go's `regexp` package (RE2 with Perl/leftmost-first
submatch semantics) exercised by the program: literals, `.`, character
classes, greedy and lazy `+`/`*`/`?`, capture groups, `(?:...)` groups,
alternation, and the `^`/`$` anchors. -/

/-- Character classes. -/
inductive CC where
  | any                                       -- `.` (any char except newline)
  | lit (c : Char)                            -- a literal character
  | cls (neg : Bool) (items : List (Char × Char))  -- `[...]` / `[^...]` with ranges
  | space                                     -- `\s` = [\t\n\f\r ]
  deriving DecidableEq

def CC.test : CC → Char → Bool
  | .any, c => c != '\n'
  | .lit a, c => c == a
  | .cls neg items, c =>
    let inside := items.any (fun p => decide (p.1 ≤ c) && decide (c ≤ p.2))
    if neg then !inside else inside
  | .space, c => c == ' ' || c == '\t' || c == '\n' || c == '\r' || c == '\x0c'

/-- Regular expressions; `alt a b` prefers `a` (leftmost-first priority),
`starG`/`starL` are greedy/lazy Kleene star, `grp n` is capture group `n`,
`eostr` is the `$` anchor. -/
inductive RE where
  | eps
  | cc (c : CC)
  | cat (a b : RE)
  | alt (a b : RE)
  | starG (a : RE)
  | starL (a : RE)
  | grp (n : Nat) (a : RE)
  | eostr
  deriving DecidableEq

def RE.size : RE → Nat
  | .eps => 1
  | .cc _ => 1
  | .cat a b => a.size + b.size + 1
  | .alt a b => a.size + b.size + 1
  | .starG a => a.size + 1
  | .starL a => a.size + 1
  | .grp _ a => a.size + 1
  | .eostr => 1

/-- Capture state: group number to captured text (last capture wins,
non-participating groups are absent). -/
abbrev Caps := List (Nat × String)

def capsGet (caps : Caps) (n : Nat) : String :=
  match assocLookup caps n with
  | some s => s
  | none => ""

/-- Backtracking matcher in continuation style.  The continuation receives
the unconsumed input and the capture state; the first success in priority
order is returned, which reproduces Go's leftmost-first (Perl) submatch
semantics.  `fuel` bounds the call depth. -/
def mtch : Nat → RE → List Char → Caps → (List Char → Caps → Option (List Char × Caps)) →
    Option (List Char × Caps)
  | 0, _, _, _, _ => none
  | _ + 1, .eps, s, caps, k => k s caps
  | _ + 1, .eostr, s, caps, k => if s.isEmpty then k s caps else none
  | _ + 1, .cc c, s, caps, k =>
    match s with
    | [] => none
    | x :: rest => if c.test x then k rest caps else none
  | fuel + 1, .cat a b, s, caps, k =>
    mtch fuel a s caps (fun s1 caps1 => mtch fuel b s1 caps1 k)
  | fuel + 1, .alt a b, s, caps, k =>
    match mtch fuel a s caps k with
    | some r => some r
    | none => mtch fuel b s caps k
  | fuel + 1, .starG a, s, caps, k =>
    match mtch fuel a s caps (fun s1 caps1 =>
        if s1.length < s.length then mtch fuel (.starG a) s1 caps1 k else k s1 caps1) with
    | some r => some r
    | none => k s caps
  | fuel + 1, .starL a, s, caps, k =>
    match k s caps with
    | some r => some r
    | none =>
      mtch fuel a s caps (fun s1 caps1 =>
        if s1.length < s.length then mtch fuel (.starL a) s1 caps1 k else none)
  | fuel + 1, .grp n a, s, caps, k =>
    mtch fuel a s caps (fun s1 caps1 =>
      k s1 (assocSet caps1 n ((s.take (s.length - s1.length)).asString)))

/-- Fuel ample for the call depth of `mtch` on the patterns in this file. -/
def mtchFuel (r : RE) (s : List Char) : Nat :=
  (r.size + 2) * (s.length + 2) + 8

/-- Match `r` at the start of `s`; on success return the unconsumed suffix
and the captures (highest-priority match, as in Go). -/
def reFindAt (r : RE) (s : List Char) : Option (List Char × Caps) :=
  mtch (mtchFuel r s) r s [] (fun rest caps => some (rest, caps))

/-- A compiled pattern: whether it was `^`-anchored, its body, and its
number of capture groups. -/
structure Regexp where
  anchoredStart : Bool
  re : RE
  groups : Nat
  deriving DecidableEq

/-- Scan for successive non-overlapping leftmost matches
(model of `FindAllStringSubmatch(s, -1)` for unanchored patterns).
Each element is (matched text, captures). -/
def reFindAllAux (fuel : Nat) (r : RE) (s : List Char) : List (List Char × Caps) :=
  match fuel with
  | 0 => []
  | f + 1 =>
    match reFindAt r s with
    | some (rest, caps) =>
      let mlen := s.length - rest.length
      if mlen == 0 then
        ([], caps) :: (match s with | [] => [] | _ :: t => reFindAllAux f r t)
      else (s.take mlen, caps) :: reFindAllAux f r rest
    | none => match s with | [] => [] | _ :: t => reFindAllAux f r t

/-- Model of `FindAllStringSubmatch(s, -1)`: a `^`-anchored pattern can only
match at the start; otherwise scan. -/
def reFindAll (rx : Regexp) (s : List Char) : List (List Char × Caps) :=
  if rx.anchoredStart then
    match reFindAt rx.re s with
    | some (rest, caps) => [(s.take (s.length - rest.length), caps)]
    | none => []
  else reFindAllAux (s.length + 1) rx.re s

/-- Model of `regexp.MatchString`. -/
def reMatchString (rx : Regexp) (s : String) : Bool :=
  !(reFindAll rx s.toList).isEmpty

/-! ### Derived regex constructors -/

def reStr (s : String) : RE :=
  s.toList.foldr (fun c acc => RE.cat (.cc (.lit c)) acc) .eps

def rePlusG (r : RE) : RE := .cat r (.starG r)

def rePlusL (r : RE) : RE := .cat r (.starL r)

def reOptG (r : RE) : RE := .alt r .eps

def reOptL (r : RE) : RE := .alt .eps r

/-! ### Parser from regex strings to `Regexp`

Models Go's `regexp.Compile` for the pattern strings this program builds
(`parsePattern` output and the `ClearCache` prefix). -/

def reApplyQuant (a : RE) (cs : List Char) : RE × List Char :=
  match cs with
  | '+' :: '?' :: rest => (rePlusL a, rest)
  | '+' :: rest => (rePlusG a, rest)
  | '*' :: '?' :: rest => (.starL a, rest)
  | '*' :: rest => (.starG a, rest)
  | '?' :: '?' :: rest => (reOptL a, rest)
  | '?' :: rest => (reOptG a, rest)
  | _ => (a, cs)

def reParseClassItems : List Char → List (Char × Char) → Option (List (Char × Char) × List Char)
  | [], _ => none
  | ']' :: rest, acc => some (acc.reverse, rest)
  | a :: '-' :: b :: rest, acc =>
    if b == ']' then some (((a, a) :: acc).reverse, rest)
    else reParseClassItems rest ((a, b) :: acc)
  | c :: rest, acc => reParseClassItems rest ((c, c) :: acc)

/-- Which grammar production `reParse` is parsing: an alternation, a
concatenation sequence, or a single (possibly quantified) atom. -/
inductive PMode where
  | palt
  | pseq
  | patom

/-- Recursive-descent parser for the regex strings this program builds,
written as one function over a fuel bound so that it is structurally
recursive (and hence computes by reduction).  Returns the parsed
expression, the next capture-group number, and the unconsumed input. -/
def reParse : Nat → PMode → Nat → List Char → Option (RE × Nat × List Char)
  | 0, _, _, _ => none
  | f + 1, .palt, g, cs =>
    match reParse f .pseq g cs with
    | none => none
    | some (r, g1, rest) =>
      match rest with
      | '|' :: rest1 =>
        match reParse f .palt g1 rest1 with
        | some (r2, g2, rest2) => some (.alt r r2, g2, rest2)
        | none => none
      | _ => some (r, g1, rest)
  | f + 1, .pseq, g, cs =>
    match cs with
    | [] => some (.eps, g, [])
    | ')' :: _ => some (.eps, g, cs)
    | '|' :: _ => some (.eps, g, cs)
    | _ =>
      match reParse f .patom g cs with
      | none => none
      | some (a, g1, rest) =>
        let q := reApplyQuant a rest
        match reParse f .pseq g1 q.2 with
        | none => none
        | some (b, g2, rest2) => some (.cat q.1 b, g2, rest2)
  | f + 1, .patom, g, cs =>
    match cs with
    | '(' :: '?' :: ':' :: rest =>
      match reParse f .palt g rest with
      | some (r, g1, ')' :: rest1) => some (r, g1, rest1)
      | _ => none
    | '(' :: rest =>
      match reParse f .palt (g + 1) rest with
      | some (r, g1, ')' :: rest1) => some (.grp g r, g1, rest1)
      | _ => none
    | '[' :: '^' :: rest =>
      match reParseClassItems rest [] with
      | some (items, rest1) => some (.cc (.cls true items), g, rest1)
      | none => none
    | '[' :: rest =>
      match reParseClassItems rest [] with
      | some (items, rest1) => some (.cc (.cls false items), g, rest1)
      | none => none
    | '.' :: rest => some (.cc .any, g, rest)
    | '$' :: rest => some (.eostr, g, rest)
    | '\\' :: 's' :: rest => some (.cc .space, g, rest)
    | '\\' :: c :: rest => some (.cc (.lit c), g, rest)
    | '^' :: _ => none
    | c :: rest => some (.cc (.lit c), g, rest)
    | [] => none

/-- Model of `regexp.Compile` on the pattern strings this program emits.
Group numbering starts at 1, in order of opening parentheses. -/
def regexpCompile (s : String) : Option Regexp :=
  let cs := s.toList
  let p := match cs with
    | '^' :: rest => (true, rest)
    | _ => (false, cs)
  match reParse (4 * cs.length + 8) .palt 1 p.2 with
  | some (r, g, []) => some ⟨p.1, r, g - 1⟩
  | _ => none

/-- Model of `regexp.MustCompile`: the program only compiles patterns it
built itself, which always parse; the default is never reached on them. -/
def mustCompile (s : String) : Regexp :=
  (regexpCompile s).getD ⟨true, .eostr, 0⟩

/-! ## Pattern compilation (router, `part_001`) -/

/-- The regex `parsePattern` uses to extract placeholder names:
`@+(.+?)(?:/|\)|$)`. -/
def nameRE : RE :=
  .cat (rePlusG (.cc (.lit '@')))
    (.cat (.grp 1 (rePlusL (.cc .any)))
      (.alt (.cc (.lit '/')) (.alt (.cc (.lit ')')) .eostr)))

/-- `parsePattern` before the final anchoring step: strip one trailing `/`
(unless the string is exactly `/`), then for each placeholder-name match
replace the first `@@name` with `(.+)` and the first `@name` with
`([^/]+)`, accumulating names left-to-right. -/
def parsePatternCore (str : String) : String × List String :=
  let str := stripTrailingSlash str
  let names :=
    if str.toList.contains '@' then
      (reFindAllAux (str.toList.length + 1) nameRE str.toList).map (fun m => capsGet m.2 1)
    else []
  names.foldl (fun acc name =>
    let s1 := strReplaceFirst acc.1 ("@@" ++ name) "(.+)"
    let s2 := strReplaceFirst s1 ("@" ++ name) "([^/]+)"
    (s2, acc.2 ++ [name])) (str, [])

/-- Model of `parsePattern` (router lines 132-153): returns the anchored
regex string `"^" ++ body ++ "$"` and the ordered parameter names. -/
def parsePattern (str : String) : String × List String :=
  let core := parsePatternCore str
  ("^" ++ core.1 ++ "$", core.2)

/-- Model of `Router.Dir` (router lines 175-189): strip one trailing `/`
(unless the string is exactly `/`) and append the optional
slash-plus-wildcard group. -/
def Dir (str : String) : String :=
  stripTrailingSlash str ++ "(?:/?@@path)?"

/-! ## Router data model -/

/-- A compiled route: HTTP method, compiled matcher, ordered parameter
names; `rid` stands in for the identity of the Go route object (its
callback is opaque to this model). -/
structure MRoute where
  method : String
  pattern : Regexp
  params : List String
  rid : Nat
  deriving DecidableEq

/-- Which route object a resolution produced: a primary-tier route (by
position), a late-tier route (by position), or the 404 fallback route.
Models Go's `*route` pointers for observation purposes. -/
inductive RouteRef where
  | primary (i : Nat)
  | late (i : Nat)
  | notFound
  deriving DecidableEq

/-- Router state: the two route tiers, the request cache
(`method ++ " " ++ path` to route), the document cache (path to resolved
text), and the `NOCACHE` flag. -/
structure Router where
  routes : List MRoute
  lateRoutes : List MRoute
  routeCache : List (String × RouteRef)
  htmlCache : List (String × String)
  noCache : Bool
  deriving DecidableEq

/-- Model of `createRoute`'s compilation steps (lines 155-165). -/
def createRoute (method str : String) (rid : Nat) : MRoute :=
  let p := parsePattern str
  ⟨method, mustCompile p.1, p.2, rid⟩

/-- `rt.method == method && rt.pattern.MatchString(url)` (lines 339, 348). -/
def routeMatches (rt : MRoute) (method url : String) : Bool :=
  rt.method == method && reMatchString rt.pattern url

/-- Index of the first route in a tier whose method and matcher both
match (the `for _, rt := range` scans in `ServeHTTP`). -/
def findFirstRoute : List MRoute → String → String → Option Nat
  | [], _, _ => none
  | rt :: rest, method, url =>
    if routeMatches rt method url then some 0
    else (findFirstRoute rest method url).map (· + 1)

/-- Model of `Router.writeCache` (lines 315-319). -/
def writeCache (R : Router) (cacheName : String) (rt : RouteRef) : Router :=
  { R with routeCache := assocSet R.routeCache cacheName rt }

/-- Result of route resolution: the selected route, the router state after
any cache write, and whether the cached-route branch was taken. -/
structure ResolveOut where
  ref : RouteRef
  st : Router
  usedCache : Bool
  deriving DecidableEq

/-- The scan part of `ServeHTTP` (lines 337-358): first matching primary
route, else first matching late route, else the 404 fallback; every
resolution is written into the request cache. -/
def scanRoutes (R : Router) (method url cacheName : String) : ResolveOut :=
  match findFirstRoute R.routes method url with
  | some i => ⟨.primary i, writeCache R cacheName (.primary i), false⟩
  | none =>
    match findFirstRoute R.lateRoutes method url with
    | some i => ⟨.late i, writeCache R cacheName (.late i), false⟩
    | none => ⟨.notFound, writeCache R cacheName .notFound, false⟩

/-- Model of `Router.ServeHTTP`'s route resolution (lines 321-358), given
the already-normalized path `url`: use the cached route when present and
caching is enabled, otherwise scan. -/
def ServeHTTP (R : Router) (method url : String) : ResolveOut :=
  match assocLookup R.routeCache (method ++ " " ++ url), R.noCache with
  | some ref, false => ⟨ref, R, true⟩
  | _, _ => scanRoutes R method url (method ++ " " ++ url)

/-- The invalidation pattern `ClearCache` builds for `str`:
`MustCompile(parsePattern("[A-Z]+ " ++ str))` (lines 362-364). -/
def clearPattern (str : String) : Regexp :=
  mustCompile (parsePattern ("[A-Z]+ " ++ str)).1

/-- Model of `Router.ClearCache` (lines 361-380): delete every
request-cache and document-cache entry whose key matches the pattern. -/
def ClearCache (R : Router) (str : String) : Router :=
  { R with
    routeCache := R.routeCache.filter (fun kv => !(reMatchString (clearPattern str) kv.1)),
    htmlCache := R.htmlCache.filter (fun kv => !(reMatchString (clearPattern str) kv.1)) }

/-- One step of the `append(routes[:i], routes[i+1:]...)` removal: the Go
`append` copies elements `i+1 .. len-1` one slot left inside the same
underlying array; positions `≥ len-1` keep their old (leftover) values.
`arr` is the underlying array (original length), `len` the current slice
length. -/
def sliceRemoveAt (arr : List MRoute) (i len : Nat) : List MRoute :=
  arr.take i ++ (arr.drop (i + 1)).take (len - 1 - i) ++ arr.drop (len - 1)

/-- The `for i, rt := range router.routes` loop of `RemoveRoute`
(lines 393-400).  The range expression is evaluated once, so the loop
visits indices `0 .. n-1` of the *original* slice header over the mutated
underlying array.  `none` models the panic of `routes[i+1:]` when
`i+1 > len(routes)`. -/
def removeLoop (str : String) : Nat → Nat → List MRoute → Nat → Router →
    Option (List MRoute × Nat × Router)
  | 0, _, arr, len, R => some (arr, len, R)
  | rem + 1, i, arr, len, R =>
    let rt := arr.getD i ⟨"", ⟨true, .eostr, 0⟩, [], 0⟩
    if reMatchString rt.pattern str then
      if len < i + 1 then none
      else removeLoop str rem (i + 1) (sliceRemoveAt arr i len) (len - 1) (ClearCache R str)
    else removeLoop str rem (i + 1) arr len R

/-- Model of `Router.RemoveRoute` (lines 393-400); `none` models a panic. -/
def RemoveRoute (R : Router) (str : String) : Option Router :=
  let n := R.routes.length
  (removeLoop str n 0 R.routes n R).map fun out =>
    { out.2.2 with routes := out.1.take out.2.1 }

/-- The parameter-extraction step of `callRoute` (lines 288-296): re-apply
the matcher and zip capture groups with the parameter names; a
non-participating group yields the empty string (Go submatch semantics).
`none` models the panic of `matches[0]` when the pattern does not match. -/
def callRouteParams (rt : MRoute) (url : String) : Option (List (String × String)) :=
  if rt.params.length > 0 then
    match reFindAll rt.pattern url.toList with
    | [] => none
    | m :: _ =>
      some ((List.range rt.pattern.groups).map
        (fun i => (rt.params.getD i "", capsGet m.2 (i + 1))))
  else some []

/-- The URL-rewrite step at the top of the `StaticDir` callback
(lines 228-232): if the params map has a `"path"` key, overwrite the
request path with `"/" ++ params["path"]`. -/
def staticDirRewrite (params : List (String × String)) (urlPath : String) : String :=
  match assocLookup params "path" with
  | some v => "/" ++ v
  | none => urlPath

/-! ## Go `path` package (Clean, Join, Dir) -/

def splitOnSlash : List Char → List (List Char)
  | [] => [[]]
  | '/' :: t => [] :: splitOnSlash t
  | c :: t =>
    match splitOnSlash t with
    | [] => [[c]]
    | g :: gs => (c :: g) :: gs

/-- The element stack of `path.Clean`: drop empty and `.` elements, have
`..` pop the previous element (kept at the root, accumulated when there is
nothing to pop in a relative path).  `acc` is kept reversed. -/
def cleanStack (rooted : Bool) : List (List Char) → List (List Char) → List (List Char)
  | acc, [] => acc
  | acc, p :: rest =>
    if p = [] ∨ p = ['.'] then cleanStack rooted acc rest
    else if p = ['.', '.'] then
      match acc with
      | [] => cleanStack rooted (if rooted then [] else [['.', '.']]) rest
      | x :: tacc =>
        if x = ['.', '.'] then cleanStack rooted (p :: x :: tacc) rest
        else cleanStack rooted tacc rest
    else cleanStack rooted (p :: acc) rest

def joinSlash : List String → String
  | [] => ""
  | [x] => x
  | x :: y :: xs => x ++ "/" ++ joinSlash (y :: xs)

/-- Model of Go `path.Clean`. -/
def pathClean (s : String) : String :=
  if s = "" then "." else
  let cs := s.toList
  let rooted := cs.head? == some '/'
  let stack := cleanStack rooted [] (splitOnSlash cs)
  let body := joinSlash ((stack.reverse).map (·.asString))
  if rooted then "/" ++ body
  else if body = "" then "." else body

/-- Model of Go `path.Join(a, b)`. -/
def pathJoin (a b : String) : String :=
  let elems := [a, b].filter (· ≠ "")
  if elems = [] then "" else pathClean (joinSlash elems)

/-- Model of Go `path.Dir`: everything up to and including the final `/`,
cleaned (`.` when there is no slash). -/
def pathDir (p : String) : String :=
  let cs := p.toList
  let pre := (cs.reverse.dropWhile (· ≠ '/')).reverse
  pathClean pre.asString

/-! ## HTML preprocessor (`html.go`) -/

/-- Go error values as seen by this program: `*fs.PathError` from
`os.ReadFile` (wrapping `fs.ErrNotExist` or another cause), or a plain
message error produced by `fmt.Errorf` with `%s` (which does **not** wrap
its argument, so the chain ends there). -/
inductive GoErr where
  | pathNotExist (fn : String)
  | pathOther (fn : String)
  | msg (m : String)
  deriving DecidableEq

/-- Model of `err.Error()` for the errors above. -/
def goErrMsg : GoErr → String
  | .pathNotExist fn => "open " ++ fn ++ ": no such file or directory"
  | .pathOther fn => "open " ++ fn ++ ": permission denied"
  | .msg m => m

/-- Model of `errors.Is(err, fs.ErrNotExist)`: walks the wrap chain; a
`fmt.Errorf`-`%s` message error has no chain. -/
def errorsIsNotExist : GoErr → Bool
  | .pathNotExist _ => true
  | .pathOther _ => false
  | .msg _ => false

/-- What the file system returns for a name (model of `os.ReadFile`). -/
inductive FileRes where
  | ok (content : String)
  | notExist
  | otherErr
  deriving DecidableEq

/-- Model of `readHTMLFile` (html.go lines 14-27). -/
def readHTMLFile (fsys : String → FileRes) (fn : String) : Except GoErr String :=
  let fn := trimLeadingSlash fn
  match fsys fn with
  | .ok c => .ok c
  | .notExist => .error (.pathNotExist fn)
  | .otherErr => .error (.pathOther fn)

/-- The include-directive regex: `<!--\s*include "(.+?\.html)"\s*-->`. -/
def includeRE : Regexp :=
  ⟨false,
    .cat (reStr "<!--")
      (.cat (.starG (.cc .space))
        (.cat (reStr "include \"")
          (.cat (.grp 1 (.cat (rePlusL (.cc .any)) (reStr ".html")))
            (.cat (reStr "\"")
              (.cat (.starG (.cc .space)) (reStr "-->")))))),
    1⟩

/-- The conditional-directive regex: `<!--\s*if (!)?\$(.+?)\s+{\s*(.+)\s*}\s*-->`. -/
def condRE : Regexp :=
  ⟨false,
    .cat (reStr "<!--")
      (.cat (.starG (.cc .space))
        (.cat (reStr "if ")
          (.cat (reOptG (.grp 1 (.cc (.lit '!'))))
            (.cat (.cc (.lit '$'))
              (.cat (.grp 2 (rePlusL (.cc .any)))
                (.cat (rePlusG (.cc .space))
                  (.cat (.cc (.lit '{'))
                    (.cat (.starG (.cc .space))
                      (.cat (.grp 3 (rePlusG (.cc .any)))
                        (.cat (.starG (.cc .space))
                          (.cat (.cc (.lit '}'))
                            (.cat (.starG (.cc .space)) (reStr "-->"))))))))))))),
    3⟩

/-- The include loop of `parseHTML` (html.go lines 32-54), with the
recursive call passed in as `ph`.  On an unreadable include the error is
rebuilt by `fmt.Errorf("unreadable include %s", err)` — a message-only
error that drops the wrap chain. -/
def processIncludes (ph : String → String → Option (Except GoErr String))
    (fsys : String → FileRes) :
    List (List Char × Caps) → String → String → Option (Except GoErr String)
  | [], str, _ => some (.ok str)
  | m :: rest, str, parentDir =>
    let tag := m.1.asString
    let inc := capsGet m.2 1
    match readHTMLFile fsys (pathJoin parentDir inc) with
    | .error e => some (.error (.msg ("unreadable include " ++ goErrMsg e)))
    | .ok body =>
      match ph body (pathJoin parentDir (pathDir inc)) with
      | none => none
      | some (.error e) => some (.error e)
      | some (.ok contents) =>
        processIncludes ph fsys rest (strReplaceFirst str tag contents) parentDir

/-- The conditional loop of `parseHTML` (html.go lines 57-77): truthiness
is "the environment variable is set to a non-empty value"; `!` inverts. -/
def processConds (env : String → String) :
    List (List Char × Caps) → String → String
  | [], str => str
  | m :: rest, str =>
    let tag := m.1.asString
    let invert := capsGet m.2 1 == "!"
    let hasEnv := env (capsGet m.2 2) != ""
    let contents := if (!invert && hasEnv) || (invert && !hasEnv) then capsGet m.2 3 else ""
    processConds env rest (strReplaceFirst str tag contents)

/-- Model of `Router.parseHTML` (html.go lines 29-80): resolve include
directives (recursively, include-file-relative), then conditional
directives.  The source recurses unboundedly on include cycles; `fuel`
bounds the modelled depth and `none` reports exhaustion. -/
def parseHTML (fuel : Nat) (env : String → String) (fsys : String → FileRes)
    (str parentDir : String) : Option (Except GoErr String) :=
  match fuel with
  | 0 => none
  | f + 1 =>
    match processIncludes (parseHTML f env fsys) fsys
        (reFindAll includeRE str.toList) str parentDir with
    | none => none
    | some (.error e) => some (.error e)
    | some (.ok str1) => some (.ok (processConds env (reFindAll condRE str1.toList) str1))

/-- Outcome of serving a document. -/
inductive ServeOutcome where
  | served (body : String)
  | notFound
  | serverError
  deriving DecidableEq

/-- Model of `Router.serveHTML` (html.go lines 92-128): for static serving
consult the document cache first; otherwise preprocess, mapping an error
to the 404 fallback when `errors.Is(err, fs.ErrNotExist)` holds and to the
500 fallback otherwise (`d.NotFound` also caches the 404 route under
`method ++ " " ++ url`); store a fresh static result in the document
cache. -/
def serveHTML (fuel : Nat) (env : String → String) (fsys : String → FileRes)
    (R : Router) (static : Bool) (text dir method url : String) :
    Option (ServeOutcome × Router) :=
  match static, assocLookup R.htmlCache url, R.noCache with
  | true, some html, false => some (.served html, R)
  | _, _, _ =>
    match parseHTML fuel env fsys text dir with
    | none => none
    | some (.error e) =>
      if errorsIsNotExist e then
        some (.notFound, writeCache R (method ++ " " ++ url) .notFound)
      else some (.serverError, R)
    | some (.ok str) =>
      some (.served str,
        if static then { R with htmlCache := assocSet R.htmlCache url str } else R)

/-! ## Concrete fixtures used by the claim theorems -/

/-- An environment with every variable unset (`os.Getenv` returns `""`). -/
def envNone : String → String := fun _ => ""

/-- An environment with `DEV=1` and everything else unset. -/
def envDev1 : String → String := fun v => if v = "DEV" then "1" else ""

/-- A file system on which every read fails with "does not exist". -/
def fsNone : String → FileRes := fun _ => .notExist

/-- Default route used with `List.getD` in scan statements (never matches). -/
def dRoute : MRoute := ⟨"", ⟨true, .eostr, 0⟩, [], 0⟩

def rX1 : MRoute := createRoute "GET" "/x" 1
def rX2 : MRoute := createRoute "GET" "/x" 2
def rY3 : MRoute := createRoute "GET" "/y" 3
def rL9 : MRoute := createRoute "GET" "/z" 9

/-- Router with two adjacent primary routes matching `/x`, one primary
route for `/y`, one late route, and cache entries for both paths. -/
def R3 : Router :=
  ⟨[rX1, rX2, rY3], [rL9], [("GET /x", .primary 0), ("GET /y", .primary 2)],
    [("/p.html", "c")], false⟩

/-- Router whose document cache holds a resolved text for `/page.html` and
whose request cache holds an entry for it. -/
def RC1 : Router :=
  ⟨[], [], [("GET /page.html", .notFound)], [("/page.html", "CACHED")], false⟩

/-- Empty router with caching enabled. -/
def Rempty : Router := ⟨[], [], [], [], false⟩

/-- Router with no routes and cached entries for `/users/doug` and
`/users/doug/extra`. -/
def RC7 : Router :=
  ⟨[], [], [("GET /users/doug", .notFound), ("GET /users/doug/extra", .notFound)], [], false⟩

/-- Router with three primary routes, one late route and an empty cache. -/
def RW5 : Router := ⟨[rX1, rX2, rY3], [rL9], [], [], false⟩

/-! ## Helper lemmas -/

theorem assocLookup_assocSet_self {α : Type} (l : List (String × α)) (k : String) (v : α) :
    assocLookup (assocSet l k v) k = some v := by
  induction l with
  | nil => simp [assocSet, assocLookup]
  | cons h t ih =>
    obtain ⟨k0, v0⟩ := h
    cases hbeq : k0 == k with
    | true => simp [assocSet, assocLookup, hbeq]
    | false => simp [assocSet, assocLookup, hbeq, ih]

theorem assocLookup_filter_of_true {α : Type} (p : String → Bool)
    (l : List (String × α)) (k : String) (hp : p k = true) :
    assocLookup (l.filter (fun kv => p kv.1)) k = assocLookup l k := by
  induction l with
  | nil => simp [assocLookup]
  | cons h t ih =>
    obtain ⟨k0, v0⟩ := h
    cases hbeq : k0 == k with
    | true =>
      have hk0 : k0 = k := by simpa using hbeq
      subst hk0
      simp [List.filter, assocLookup, hp]
    | false =>
      cases hpk0 : p k0 with
      | true => simp [List.filter, assocLookup, hpk0, hbeq, ih]
      | false => simp [List.filter, assocLookup, hpk0, hbeq, ih]

theorem assocLookup_filter_of_false {α : Type} (p : String → Bool)
    (l : List (String × α)) (k : String) (hp : p k = false) :
    assocLookup (l.filter (fun kv => p kv.1)) k = none := by
  induction l with
  | nil => simp [assocLookup]
  | cons h t ih =>
    obtain ⟨k0, v0⟩ := h
    cases hpk0 : p k0 with
    | true =>
      have hk : (k0 == k) = false := by
        cases hbeq : k0 == k with
        | true =>
          have hk0 : k0 = k := by simpa using hbeq
          rw [hk0, hp] at hpk0
          exact absurd hpk0 (by simp)
        | false => rfl
      simp [List.filter, assocLookup, hpk0, hk, ih]
    | false => simp [List.filter, hpk0, ih]

theorem findFirstRoute_eq_some_of (l : List MRoute) (method url : String) (i : Nat)
    (hi : i < l.length)
    (hm : routeMatches (l.getD i dRoute) method url = true)
    (hb : ∀ j, j < i → routeMatches (l.getD j dRoute) method url = false) :
    findFirstRoute l method url = some i := by
  induction l generalizing i with
  | nil => exact absurd hi (Nat.not_lt_zero i)
  | cons rt rest ih =>
    cases i with
    | zero =>
      simp only [List.getD_cons_zero] at hm
      simp [findFirstRoute, hm]
    | succ n =>
      have h0 : routeMatches rt method url = false := by
        have := hb 0 (Nat.succ_pos n)
        simpa using this
      have hrec : findFirstRoute rest method url = some n := by
        refine ih n (by simpa using hi) (by simpa using hm) ?_
        intro j hj
        have := hb (j + 1) (Nat.succ_lt_succ hj)
        simpa using this
      simp [findFirstRoute, h0, hrec]

theorem findFirstRoute_eq_none_of (l : List MRoute) (method url : String)
    (h : ∀ i, i < l.length → routeMatches (l.getD i dRoute) method url = false) :
    findFirstRoute l method url = none := by
  induction l with
  | nil => rfl
  | cons rt rest ih =>
    have h0 : routeMatches rt method url = false := by
      have := h 0 (Nat.succ_pos rest.length)
      simpa using this
    have hrec : findFirstRoute rest method url = none := by
      refine ih ?_
      intro i hi
      have := h (i + 1) (Nat.succ_lt_succ hi)
      simpa using this
    simp [findFirstRoute, h0, hrec]

theorem ServeHTTP_uncached (R : Router) (method url : String)
    (h : assocLookup R.routeCache (method ++ " " ++ url) = none ∨ R.noCache = true) :
    ServeHTTP R method url = scanRoutes R method url (method ++ " " ++ url) := by
  unfold ServeHTTP
  split
  · rename_i hlook hnc
    rcases h with h | h
    · rw [h] at hlook
      exact absurd hlook (by simp)
    · rw [h] at hnc
      exact absurd hnc (by simp)
  · rfl

theorem ServeHTTP_cache_after (R : Router) (method url : String)
    (h : R.noCache = false) :
    assocLookup (ServeHTTP R method url).st.routeCache (method ++ " " ++ url) =
      some (ServeHTTP R method url).ref := by
  unfold ServeHTTP
  split
  · rename_i hlook hnc
    exact hlook
  · unfold scanRoutes
    split
    · exact assocLookup_assocSet_self ..
    · split
      · exact assocLookup_assocSet_self ..
      · exact assocLookup_assocSet_self ..

theorem ServeHTTP_noCache_eq (R : Router) (method url : String) :
    (ServeHTTP R method url).st.noCache = R.noCache := by
  unfold ServeHTTP
  split
  · rfl
  · unfold scanRoutes
    split
    · rfl
    · split
      · rfl
      · rfl

theorem ServeHTTP_cached_hit (R : Router) (method url : String) (ref : RouteRef)
    (hl : assocLookup R.routeCache (method ++ " " ++ url) = some ref)
    (hn : R.noCache = false) :
    ServeHTTP R method url = ⟨ref, R, true⟩ := by
  unfold ServeHTTP
  rw [hl, hn]

/-! ## Claim theorems -/

/-- **C1.** The claim says `ClearCache(p)` deletes every document-cache
(`htmlCache`) entry whose key matches `p`, so a later static request
re-runs the preprocessor.  The code prefixes the invalidation pattern with
`[A-Z]+ ` (a method), but document-cache keys are bare request paths that
start with `/`, so the pattern never matches them: after
`ClearCache("/page.html")` the request-cache entry is gone, the
document-cache entry survives, and the next static request for
`/page.html` is served from the stale cache (`"CACHED"`) even though a
fresh preprocess of the current document text would produce `"FRESH"`. -/
theorem clearCache_leaves_htmlCache_stale :
    (ClearCache RC1 "/page.html").routeCache = []
    ∧ (ClearCache RC1 "/page.html").htmlCache = [("/page.html", "CACHED")]
    ∧ serveHTML 16 envNone fsNone (ClearCache RC1 "/page.html") true "FRESH" "."
        "GET" "/page.html" = some (.served "CACHED", ClearCache RC1 "/page.html")
    ∧ parseHTML 16 envNone fsNone "FRESH" "." = some (.ok "FRESH") := by
  refine ⟨by decide, by decide, ?_, ?_⟩ <;> rfl

/-- **C2.** The claim says an include of a nonexistent file ends in the
not-found outcome.  `parseHTML` rebuilds the read error with
`fmt.Errorf("unreadable include %s", err)` — `%s`, not `%w` — which drops
the wrap chain, so `errors.Is(err, fs.ErrNotExist)` in `serveHTML` is
false and the server-error outcome is taken instead. -/
theorem missing_include_maps_to_server_error :
    parseHTML 16 envNone fsNone "<!-- include \"missing.html\" -->" "."
      = some (.error (.msg "unreadable include open missing.html: no such file or directory"))
    ∧ errorsIsNotExist
        (.msg "unreadable include open missing.html: no such file or directory") = false
    ∧ (serveHTML 16 envNone fsNone Rempty true "<!-- include \"missing.html\" -->" "."
        "GET" "/doc.html").map Prod.fst = some .serverError := by
  refine ⟨?_, rfl, ?_⟩ <;> rfl

/-- **C3.** The claim says `RemoveRoute(p)` removes every primary route
matching `p`, including adjacent ones.  The loop removes elements from the
slice it is ranging over: after removing the match at index `i`, the
element shifted into slot `i` is never examined.  With primary tier
`[rX1, rX2, rY3]` (rids 1, 2, 3; the first two match `/x`),
`RemoveRoute("/x")` leaves `[rX2, rY3]` — route 2 still matches `/x` but
survives.  The late tier is untouched and the cache entry for `/x` was
invalidated. -/
theorem removeRoute_skips_adjacent_match :
    (RemoveRoute R3 "/x").map (fun R => R.routes.map MRoute.rid) = some [2, 3]
    ∧ reMatchString rX2.pattern "/x" = true
    ∧ (RemoveRoute R3 "/x").map (fun R => R.lateRoutes.map MRoute.rid) = some [9]
    ∧ (RemoveRoute R3 "/x").map (fun R => R.routeCache.map Prod.fst) = some ["GET /y"]
    ∧ (RemoveRoute ⟨[rX1, rX2], [], [], [], false⟩ "/x").isSome = false := by
  refine ⟨?_, ?_, ?_, ?_, ?_⟩ <;> rfl

/-- **C8 (counterexample).** The claim says that with `DEV` unset,
`<!-- if !$DEV { Y } -->` resolves to exactly `"Y"`.  The greedy `(.+)`
in the conditional regex absorbs the whitespace before the closing brace
(while `{\s*` strips the whitespace after the opening brace), so the
resolution is `"Y "` — with a trailing space — not `"Y"`. -/
theorem cond_negated_not_exactly_Y :
    parseHTML 16 envNone fsNone "<!-- if !$DEV { Y } -->" "/" = some (.ok "Y ")
    ∧ ("Y " : String) ≠ "Y" := by
  exact ⟨rfl, by decide⟩

/-- **C8 (amended).** With `DEV` unset, `<!-- if $DEV { X } -->` resolves
to the empty string and `<!-- if !$DEV { Y } -->` resolves to `"Y "` (the
captured text keeps the whitespace preceding `}`); with `DEV=1` the
results invert, the positive form resolving to `"X "`. -/
theorem cond_directive_resolution :
    parseHTML 16 envNone fsNone "<!-- if $DEV { X } -->" "/" = some (.ok "")
    ∧ parseHTML 16 envNone fsNone "<!-- if !$DEV { Y } -->" "/" = some (.ok "Y ")
    ∧ parseHTML 16 envDev1 fsNone "<!-- if $DEV { X } -->" "/" = some (.ok "X ")
    ∧ parseHTML 16 envDev1 fsNone "<!-- if !$DEV { Y } -->" "/" = some (.ok "") := by
  refine ⟨?_, ?_, ?_, ?_⟩ <;> rfl

/-- **C10.** For the route compiled from `Dir("/assets")`, a request for
the bare prefix `/assets` matches with the optional wildcard group not
participating; parameter extraction still inserts the key `"path"` bound
to the empty string (Go reports `""` for a non-participating group), so
the `StaticDir` callback sees the key as present and rewrites the request
path to `"/"`. -/
theorem dir_bare_prefix_param_present :
    callRouteParams (createRoute "GET" (Dir "/assets") 0) "/assets" = some [("path", "")]
    ∧ assocLookup [("path", "")] "path" = some ""
    ∧ staticDirRewrite [("path", "")] "/assets" = "/" := by
  refine ⟨?_, rfl, rfl⟩
  rfl

/-- **C4.** Pattern compilation: one trailing `/` is stripped (unless the
route string is exactly `/`); the result is anchored as `^body$`;
`@@name` becomes a capture of one-or-more path segments that may span
`/`; `@name` becomes a capture of exactly one segment; parameter names
are recorded left-to-right; anchoring rejects partial matches — all per
the claim's own examples `/files/@@path` and `/user/@id`. -/
theorem parsePattern_placeholder_semantics :
    (∀ s : String, s ≠ "/" → strHasSuffixSlash s = true →
        strHasSuffixSlash (strDropLast s) = false →
        parsePattern s = parsePattern (strDropLast s))
    ∧ (∀ s : String, (parsePattern s).1 = "^" ++ (parsePatternCore s).1 ++ "$")
    ∧ parsePattern "/files/@@path" = ("^/files/(.+)$", ["path"])
    ∧ parsePattern "/user/@id" = ("^/user/([^/]+)$", ["id"])
    ∧ callRouteParams (createRoute "GET" "/files/@@path" 0) "/files/a/b/c"
        = some [("path", "a/b/c")]
    ∧ reMatchString (createRoute "GET" "/user/@id" 0).pattern "/user/42" = true
    ∧ callRouteParams (createRoute "GET" "/user/@id" 0) "/user/42" = some [("id", "42")]
    ∧ reMatchString (createRoute "GET" "/user/@id" 0).pattern "/user/42/extra" = false := by
  refine ⟨?_, fun s => rfl, rfl, rfl, rfl, rfl, rfl, rfl⟩
  intro s h1 h2 h3
  have e1 : stripTrailingSlash s = strDropLast s := by
    unfold stripTrailingSlash
    rw [if_neg h1, if_pos h2]
  have hne : strDropLast s ≠ "/" := by
    intro he
    rw [he] at h3
    exact absurd h3 (by decide)
  have e2 : stripTrailingSlash (strDropLast s) = strDropLast s := by
    unfold stripTrailingSlash
    rw [if_neg hne, if_neg (by simp [h3])]
  unfold parsePattern parsePatternCore
  rw [e1, e2]

theorem parsePattern_placeholder_semantics_witness :
    (("/files/" : String) ≠ "/")
    ∧ strHasSuffixSlash "/files/" = true
    ∧ strHasSuffixSlash (strDropLast "/files/") = false
    ∧ parsePattern "/files/" = parsePattern (strDropLast "/files/") :=
  ⟨by decide, by decide, by decide,
    parsePattern_placeholder_semantics.1 "/files/" (by decide) (by decide) (by decide)⟩

/-- **C5.** On an uncached dispatch (cache miss or caching disabled), the
selected route is the first primary route in registration order whose
method and matcher both match; failing that, the first matching late
route; failing that, the 404 fallback. -/
theorem dispatch_scan_precedence (R : Router) (method url : String)
    (h : assocLookup R.routeCache (method ++ " " ++ url) = none ∨ R.noCache = true) :
    (∀ i, i < R.routes.length →
        routeMatches (R.routes.getD i dRoute) method url = true →
        (∀ j, j < i → routeMatches (R.routes.getD j dRoute) method url = false) →
        (ServeHTTP R method url).ref = .primary i)
    ∧ ((∀ i, i < R.routes.length → routeMatches (R.routes.getD i dRoute) method url = false) →
        ∀ i, i < R.lateRoutes.length →
        routeMatches (R.lateRoutes.getD i dRoute) method url = true →
        (∀ j, j < i → routeMatches (R.lateRoutes.getD j dRoute) method url = false) →
        (ServeHTTP R method url).ref = .late i)
    ∧ ((∀ i, i < R.routes.length → routeMatches (R.routes.getD i dRoute) method url = false) →
        (∀ i, i < R.lateRoutes.length → routeMatches (R.lateRoutes.getD i dRoute) method url = false) →
        (ServeHTTP R method url).ref = .notFound) := by
  rw [ServeHTTP_uncached R method url h]
  refine ⟨?_, ?_, ?_⟩
  · intro i hi hm hb
    unfold scanRoutes
    rw [findFirstRoute_eq_some_of R.routes method url i hi hm hb]
  · intro hall i hi hm hb
    unfold scanRoutes
    rw [findFirstRoute_eq_none_of R.routes method url hall,
      findFirstRoute_eq_some_of R.lateRoutes method url i hi hm hb]
  · intro hall1 hall2
    unfold scanRoutes
    rw [findFirstRoute_eq_none_of R.routes method url hall1,
      findFirstRoute_eq_none_of R.lateRoutes method url hall2]

theorem dispatch_scan_precedence_witness :
    (ServeHTTP RW5 "GET" "/x").ref = .primary 0
    ∧ (ServeHTTP RW5 "GET" "/z").ref = .late 0
    ∧ (ServeHTTP RW5 "GET" "/nope").ref = .notFound :=
  ⟨(dispatch_scan_precedence RW5 "GET" "/x" (Or.inl rfl)).1 0 (by decide) (by decide)
      (fun j hj => absurd hj (Nat.not_lt_zero j)),
    (dispatch_scan_precedence RW5 "GET" "/z" (Or.inl rfl)).2.1
      (by
        intro i hi
        have h3 : i < 3 := by simpa [RW5] using hi
        interval_cases i <;> decide)
      0 (by decide) (by decide)
      (fun j hj => absurd hj (Nat.not_lt_zero j)),
    (dispatch_scan_precedence RW5 "GET" "/nope" (Or.inl rfl)).2.2
      (by
        intro i hi
        have h3 : i < 3 := by simpa [RW5] using hi
        interval_cases i <;> decide)
      (by
        intro i hi
        have h1 : i < 1 := by simpa [RW5] using hi
        interval_cases i
        decide)⟩

/-- **C6.** With caching enabled and no intervening mutation, dispatching
the same (method, normalized path) twice yields the same route, and the
second dispatch takes the cache-hit branch (state unchanged, no tier
scan); an unregistered path resolves to the 404 fallback and its first
dispatch stores that fallback in the request cache. -/
theorem dispatch_idempotent_cached (R : Router) (method url : String)
    (h : R.noCache = false) :
    ((ServeHTTP (ServeHTTP R method url).st method url).ref = (ServeHTTP R method url).ref
      ∧ (ServeHTTP (ServeHTTP R method url).st method url).usedCache = true
      ∧ (ServeHTTP (ServeHTTP R method url).st method url).st = (ServeHTTP R method url).st)
    ∧ (assocLookup R.routeCache (method ++ " " ++ url) = none →
        findFirstRoute R.routes method url = none →
        findFirstRoute R.lateRoutes method url = none →
        (ServeHTTP R method url).ref = .notFound
          ∧ assocLookup (ServeHTTP R method url).st.routeCache (method ++ " " ++ url)
              = some .notFound) := by
  have hl := ServeHTTP_cache_after R method url h
  have hn : (ServeHTTP R method url).st.noCache = false := by
    rw [ServeHTTP_noCache_eq]
    exact h
  constructor
  · rw [ServeHTTP_cached_hit (ServeHTTP R method url).st method url
      (ServeHTTP R method url).ref hl hn]
    exact ⟨rfl, rfl, rfl⟩
  · intro h1 h2 h3
    rw [ServeHTTP_uncached R method url (Or.inl h1)]
    unfold scanRoutes
    rw [h2, h3]
    exact ⟨rfl, assocLookup_assocSet_self ..⟩

theorem dispatch_idempotent_cached_witness :
    Rempty.noCache = false
    ∧ (ServeHTTP (ServeHTTP Rempty "GET" "/a").st "GET" "/a").usedCache = true
    ∧ (ServeHTTP (ServeHTTP Rempty "GET" "/a").st "GET" "/a").ref
        = (ServeHTTP Rempty "GET" "/a").ref
    ∧ (ServeHTTP Rempty "GET" "/a").ref = .notFound
    ∧ assocLookup (ServeHTTP Rempty "GET" "/a").st.routeCache "GET /a" = some .notFound :=
  ⟨rfl, (dispatch_idempotent_cached Rempty "GET" "/a" rfl).1.2.1,
    (dispatch_idempotent_cached Rempty "GET" "/a" rfl).1.1,
    ((dispatch_idempotent_cached Rempty "GET" "/a" rfl).2 rfl rfl rfl).1,
    ((dispatch_idempotent_cached Rempty "GET" "/a" rfl).2 rfl rfl rfl).2⟩

/-- **C7.** `ClearCache("/users/@name")` deletes exactly the request-cache
entries whose key matches the compiled pattern `^[A-Z]+ /users/([^/]+)$`:
a matching key is gone afterwards, a non-matching key keeps its entry;
`METHOD ++ " /users/doug"` matches for each standard HTTP method, while
`"GET /users/doug/extra"` does not match. -/
theorem clearCache_pattern_exact :
    (∀ (R : Router) (key : String),
        reMatchString (clearPattern "/users/@name") key = true →
        assocLookup (ClearCache R "/users/@name").routeCache key = none)
    ∧ (∀ (R : Router) (key : String),
        reMatchString (clearPattern "/users/@name") key = false →
        assocLookup (ClearCache R "/users/@name").routeCache key
          = assocLookup R.routeCache key)
    ∧ (∀ m, m ∈ ["GET", "POST", "PUT", "DELETE", "HEAD", "PATCH"] →
        reMatchString (clearPattern "/users/@name") (m ++ " /users/doug") = true)
    ∧ reMatchString (clearPattern "/users/@name") "GET /users/doug/extra" = false := by
  refine ⟨?_, ?_, ?_, rfl⟩
  · intro R key hk
    exact assocLookup_filter_of_false
      (fun k => !(reMatchString (clearPattern "/users/@name") k))
      R.routeCache key (by simp [hk])
  · intro R key hk
    exact assocLookup_filter_of_true
      (fun k => !(reMatchString (clearPattern "/users/@name") k))
      R.routeCache key (by simp [hk])
  · intro m hm
    fin_cases hm <;> rfl

theorem clearCache_pattern_exact_witness :
    assocLookup (ClearCache RC7 "/users/@name").routeCache "GET /users/doug" = none
    ∧ assocLookup (ClearCache RC7 "/users/@name").routeCache "GET /users/doug/extra"
        = assocLookup RC7.routeCache "GET /users/doug/extra" :=
  ⟨clearCache_pattern_exact.1 RC7 "GET /users/doug" rfl,
    clearCache_pattern_exact.2.1 RC7 "GET /users/doug/extra" rfl⟩

/-- **C9.** `Dir(s)` appends the optional slash-plus-wildcard group to the
(trailing-slash-stripped) prefix; compiled, it accepts both the bare
prefix and the prefix followed by `/` and a deeper path, with the single
parameter `path`, whose captured value excludes the separating slash. -/
theorem dir_route_pattern :
    (∀ s : String, s = "/" ∨ strHasSuffixSlash s = false → Dir s = s ++ "(?:/?@@path)?")
    ∧ parsePattern (Dir "/assets") = ("^/assets(?:/?(.+))?$", ["path"])
    ∧ (createRoute "GET" (Dir "/assets") 0).params = ["path"]
    ∧ reMatchString (createRoute "GET" (Dir "/assets") 0).pattern "/assets" = true
    ∧ reMatchString (createRoute "GET" (Dir "/assets") 0).pattern "/assets/x/y" = true
    ∧ callRouteParams (createRoute "GET" (Dir "/assets") 0) "/assets/x/y"
        = some [("path", "x/y")] := by
  refine ⟨?_, rfl, rfl, rfl, rfl, rfl⟩
  intro s hs
  unfold Dir stripTrailingSlash
  rcases hs with h | h
  · rw [if_pos h, h]
  · have hne : s ≠ "/" := by
      intro he
      rw [he] at h
      exact absurd h (by decide)
    rw [if_neg hne, if_neg (by simp [h])]

theorem dir_route_pattern_witness :
    (("/assets" : String) = "/" ∨ strHasSuffixSlash "/assets" = false)
    ∧ Dir "/assets" = "/assets" ++ "(?:/?@@path)?" :=
  ⟨Or.inr (by decide), dir_route_pattern.1 "/assets" (Or.inr (by decide))⟩

end Tube
